import Mathlib

/-!
Verification of the `LdapService` core (src/lib/ldap.service.ts) of the
nestjs-ldap repository: a shallow embedding of the attribute-normalization
helpers, the admin-session state machine, the lookup / authentication /
modify orchestration and the cache-consistency layer, followed by theorems
settling the specification claims.

External collaborators (the ldapjs client, the Redis-backed cache store,
winston logging and bcrypt) are modelled as oracle parameters or small
deterministic stand-ins, mirroring the contracts in the spec: the directory
search outcome is an `Option (List LdapUser)` (the `undefined` / entry-list
result of `search`), bind outcomes are boolean oracles, and bcrypt is an
injective tag-hash with `compare pw h ↔ h = hash pw` (a well-formed bcrypt
hash matches exactly the password it was produced from, and the empty
string is not a well-formed hash).
-/

namespace LdapSpec

/-- The sentinel stored as `password` for cache records written by
non-authenticating lookups (`LDAP_PASSWORD_NULL` in the source). -/
def LDAP_PASSWORD_NULL : String := "nCN34c23~_@093429!*%3w32-23787"

/-- A normalized directory entry, with the fields the service logic
inspects (`dn`, `sAMAccountName`) explicit and the remaining attributes
opaque. -/
structure LdapUser where
  dn : String
  sAMAccountName : String
  attrs : List (String × String)
deriving DecidableEq, Repr

/-- A cache record: `LDAPCache` is `\x7b user, password \x7d` in the source, where
`password` is either `LDAP_PASSWORD_NULL` or a bcrypt hash. -/
structure CacheRec where
  user : LdapUser
  password : String
deriving DecidableEq, Repr

/-- The cache store modelled as an association list from keys to records. -/
def Cache := List (String × CacheRec)
deriving DecidableEq, Repr

/-- `get(key)` of the cache store. -/
def cacheGet (c : Cache) (k : String) : Option CacheRec :=
  match c with
  | [] => none
  | (k2, v) :: rest => if k2 = k then some v else cacheGet rest k

/-- `del(key)` of the cache store. -/
def cacheDel (c : Cache) (k : String) : Cache :=
  match c with
  | [] => []
  | (k2, v) :: rest => if k2 = k then cacheDel rest k else (k2, v) :: cacheDel rest k

/-- `set(key, value, ttl)` of the cache store (the TTL is not modelled;
records are destroyed only by `del`). -/
def cacheSet (c : Cache) (k : String) (v : CacheRec) : Cache :=
  (k, v) :: cacheDel c k

/-- The error taxonomy of the service layer. `noSuchObject` is
`Ldap.NoSuchObjectError` (zero matches), `unexpectedMatches` the generic
ambiguous-result `Error`, `invalidCredentials` a rejected user bind. -/
inductive LdapErr where
  | noSuchObject
  | unexpectedMatches (n : Nat)
  | noResult
  | emptyUsername
  | noPasswordGiven
  | invalidCredentials
  | bindDNUndefined
  | adminBindError
  | groupError
deriving DecidableEq, Repr

/-- Observable side effects of an `authenticate` call, in order: cache
reads, admin searches, user binds, and the `From cache` debug log that
marks the cached-hit branch being taken. -/
inductive Eff where
  | cacheRead (k : String)
  | dirSearch
  | bindUser (dn : String)
  | fromCacheLog
deriving DecidableEq, Repr

/-! ## SessionManager: admin bound/unbound state (`adminBind` / `onConnectAdmin`) -/

/-- The admin connection state owned by the service (`this.adminBound`). -/
structure AdminState where
  adminBound : Bool
deriving DecidableEq, Repr

/-- `onConnectAdmin`: fails (state forced to unbound) when `bindDN` is
undefined; otherwise performs the admin bind, whose outcome is the oracle
`bindOutcome`; on success sets `adminBound`, on failure clears it. -/
def onConnectAdmin (bindDN : Option String) (bindOutcome : Bool) :
    Except LdapErr Bool × AdminState :=
  match bindDN with
  | none => (.error .bindDNUndefined, ⟨false⟩)
  | some _ =>
    if bindOutcome then (.ok true, ⟨true⟩)
    else (.error .adminBindError, ⟨false⟩)

/-- `adminBind`: `this.adminBound ? true : this.onConnectAdmin(...)`. -/
def adminBind (bindDN : Option String) (bindOutcome : Bool) (st : AdminState) :
    Except LdapErr Bool × AdminState :=
  if st.adminBound then (.ok true, st) else onConnectAdmin bindDN bindOutcome

/-! ## LookupService: `findUser` and `searchByDN` result handling -/

/-- `findUser`: empty-username guard, bare-key cache probe, then the
admin search (outcome `search`; `none` is an `undefined` result) with the
0/1/N match handling of the source. Returns the result together with the
effects performed. -/
def findUserM (search : Option (List LdapUser)) (hasCache : Bool) (c : Cache)
    (useCache : Bool) (username : String) :
    Except LdapErr LdapUser × List Eff :=
  if username = "" then (.error .emptyUsername, [])
  else
    let cached : Option LdapUser :=
      if useCache && hasCache then
        match cacheGet c username with
        | some rec => if rec.user.sAMAccountName ≠ "" then some rec.user else none
        | none => none
      else none
    let effs0 : List Eff := if useCache && hasCache then [.cacheRead username] else []
    match cached with
    | some u => (.ok u, effs0)
    | none =>
      match search with
      | none => (.error .noSuchObject, effs0 ++ [.dirSearch])
      | some [] => (.error .noSuchObject, effs0 ++ [.dirSearch])
      | some [u] => (.ok u, effs0 ++ [.dirSearch])
      | some l => (.error (.unexpectedMatches l.length), effs0 ++ [.dirSearch])

/-- `searchByDN`: prefixed-key cache probe, then a search based at the DN
with the same 0/1/N handling; an `undefined` search result is the generic
`No result from search` error. On a unique match the entry is written back
under `dn:` and (when the account name is nonempty) `user:` keys. -/
def searchByDN (search : Option (List LdapUser)) (hasCache : Bool) (c : Cache)
    (useCache : Bool) (userByDN : String) :
    Except LdapErr LdapUser × Cache :=
  let cachedID := "dn:" ++ userByDN
  let cached : Option LdapUser :=
    if useCache && hasCache then
      match cacheGet c cachedID with
      | some rec => if rec.user.sAMAccountName ≠ "" then some rec.user else none
      | none => none
    else none
  match cached with
  | some u => (.ok u, c)
  | none =>
    match search with
    | none => (.error .noResult, c)
    | some [] => (.error .noSuchObject, c)
    | some [u] =>
      let c2 :=
        if hasCache then
          let ca := cacheSet c cachedID ⟨u, LDAP_PASSWORD_NULL⟩
          if u.sAMAccountName ≠ "" then
            cacheSet ca ("user:" ++ u.sAMAccountName) ⟨u, LDAP_PASSWORD_NULL⟩
          else ca
        else c
      (.ok u, c2)
    | some l => (.error (.unexpectedMatches l.length), c)

/-! ## AuthenticationService: bcrypt stand-in, `authenticateInternal`, `authenticate` -/

/-- bcrypt `hashSync` stand-in: an injective tag of the password. The salt
argument of the source is dropped (compare only consults the password). -/
def bhash (password : String) : String := "2b$" ++ password

/-- bcrypt `compareSync` stand-in: a hash matches exactly the password it
was produced from; in particular the empty string matches no password. -/
def bcompare (password hash : String) : Bool := hash = bhash password

/-- The oracles `authenticate` consumes: the admin search outcome for the
username, the user bind outcome, and the `getGroups` capability (identity
when group search is unconfigured). -/
structure AuthEnv where
  search : Option (List LdapUser)
  bindUser : String → String → Bool
  groups : LdapUser → Except LdapErr LdapUser

/-- `authenticateInternal`: resolve the user via `findUser` (with its
default `cache = true`), bind a dedicated user connection as the resolved
`dn` (the default `bindProperty`) with the supplied password, then resolve
groups. -/
def authenticateInternal (env : AuthEnv) (hasCache : Bool) (c : Cache)
    (username password : String) : Except LdapErr LdapUser × List Eff :=
  match findUserM env.search hasCache c true username with
  | (.error e, effs) => (.error e, effs)
  | (.ok u, effs) =>
    if env.bindUser u.dn password then
      match env.groups u with
      | .ok ug => (.ok ug, effs ++ [.bindUser u.dn])
      | .error e => (.error e, effs ++ [.bindUser u.dn])
    else (.error .invalidCredentials, effs ++ [.bindUser u.dn])

/-- The live (cache-miss) path of `authenticate`: authenticate internally
and on success write the enriched user to the cache under
`user:<sAMAccountName>` with a fresh bcrypt hash. -/
def liveAuth (env : AuthEnv) (hasCache : Bool) (c : Cache)
    (username password : String) : Except LdapErr LdapUser × Cache × List Eff :=
  match authenticateInternal env hasCache c username password with
  | (.ok u, effs) =>
    (.ok u,
     (if hasCache then cacheSet c ("user:" ++ u.sAMAccountName) ⟨u, bhash password⟩ else c),
     effs)
  | (.error e, effs) => (.error e, c, effs)

/-- The cached-hit branch of `authenticate`: return the cached user, and
run the background re-authentication (modelled as completing before the
combined outcome is observed); the background task overwrites the cache
only when the live result differs from the cached user by value comparison
(`JSON.stringify` inequality), and discards background failures. -/
def hitBranch (env : AuthEnv) (hasCache : Bool) (c : Cache)
    (username password : String) (rec : CacheRec) :
    Except LdapErr LdapUser × Cache × List Eff :=
  let live := authenticateInternal env hasCache c username password
  let c2 :=
    match live.1 with
    | .ok u =>
      if u ≠ rec.user ∧ hasCache then
        cacheSet c ("user:" ++ u.sAMAccountName) ⟨u, bhash password⟩
      else c
    | .error _ => c
  (.ok rec.user, c2, .fromCacheLog :: live.2)

/-- `authenticate`: empty-password guard, then the cache-aside read of
`user:<username>` requiring a present record with nonempty account name,
nonempty stored password, and the sentinel-or-bcrypt password check; a hit
answers from the cache (with background refresh), anything else falls to
the live path. Returns (result, final cache, effects). -/
def authenticate (env : AuthEnv) (hasCache : Bool) (c : Cache) (useCache : Bool)
    (username password : String) : Except LdapErr LdapUser × Cache × List Eff :=
  if password = "" then (.error .noPasswordGiven, c, [])
  else
    let cachedID := "user:" ++ username
    if useCache && hasCache then
      match cacheGet c cachedID with
      | some rec =>
        if rec.user.sAMAccountName ≠ "" ∧ rec.password ≠ "" ∧
            (rec.password = LDAP_PASSWORD_NULL ∨ bcompare password rec.password) then
          let r := hitBranch env hasCache c username password rec
          (r.1, r.2.1, .cacheRead cachedID :: r.2.2)
        else
          let r := liveAuth env hasCache c username password
          (r.1, r.2.1, .cacheRead cachedID :: r.2.2)
      | none =>
        let r := liveAuth env hasCache c username password
        (r.1, r.2.1, .cacheRead cachedID :: r.2.2)
    else liveAuth env hasCache c username password

/-! ## AuthenticationService: `modify` -/

/-- One element of the `data` array of `modify`: a `Change` whose
`modification` carries an attribute type and its values (values modelled
as an opaque string). -/
structure Modification where
  type : String
  vals : String
deriving DecidableEq, Repr

/-- A `Change` as passed to `modify`. -/
structure Change where
  modification : Modification
deriving DecidableEq, Repr

/-- The in-place redaction `modify` applies to its `data` argument: photo
attribute values are replaced by the `...skipped...` marker. -/
def redactData (data : List Change) : List Change :=
  data.map fun ch =>
    if ch.modification.type = "thumbnailPhoto" ∨ ch.modification.type = "jpegPhoto" then
      ⟨⟨ch.modification.type, "...skipped..."⟩⟩
    else ch

/-- Oracles for a `modify` call: the `adminBind` outcome, the user bind
outcome, and the directory modify outcome (`none` is success). -/
structure ModifyEnv where
  adminBindOk : Bool
  bindUser : String → String → Bool
  modifyResult : Option LdapErr

/-- `modify`: after `adminBind`, either the user-bind path (when a
password is supplied) or the admin path. Both paths redact photo values in
the caller's `data` array before checking the modify outcome. On success
both paths delete the bare `dn` and `username` cache keys. On the user
path a failed directory modify rejects the promise but — the source lacks
the early return the admin path has — still falls through to the cache
deletions. Returns (result, final cache, final state of `data`). -/
def modify (env : ModifyEnv) (hasCache : Bool) (c : Cache) (dn : String)
    (data : List Change) (username : Option String) (password : Option String) :
    Except LdapErr Bool × Cache × List Change :=
  if ¬ env.adminBindOk then (.error .adminBindError, c, data)
  else
    let delBoth : Cache :=
      if hasCache then
        match username with
        | some u => cacheDel (cacheDel c dn) u
        | none => cacheDel c dn
      else c
    match password with
    | some pw =>
      let data2 := redactData data
      if ¬ env.bindUser dn pw then (.error .invalidCredentials, c, data2)
      else
        match env.modifyResult with
        | some e => (.error e, delBoth, data2)
        | none => (.ok true, delBoth, data2)
    | none =>
      let data2 := redactData data
      match env.modifyResult with
      | some e => (.error e, c, data2)
      | none => (.ok true, delBoth, data2)

/-! ## AttributeNormalizer: base64 transport decoding (`Buffer.from(·, 'base64')`) -/

/-- The standard base64 alphabet. -/
def b64Alphabet : List Char :=
  "ABCDEFGHIJKLMNOPQRSTUVWXYZabcdefghijklmnopqrstuvwxyz0123456789+/".data

/-- The alphabet character of a 6-bit value. -/
def b64Char (v : Nat) : Char := b64Alphabet.getD v 'A'

/-- The 6-bit value of an alphabet character (`none` for padding and any
character outside the alphabet, which the decoder skips). -/
def b64Val (c : Char) : Option Nat :=
  if c ∈ b64Alphabet then some (b64Alphabet.indexOf c) else none

/-- Pack bytes into 6-bit values, three bytes to four values, with the
shortened tail groups of base64. -/
def packVals : List Nat → List Nat
  | b0 :: b1 :: b2 :: rest =>
    b0 / 4 :: ((b0 % 4) * 16 + b1 / 16) :: ((b1 % 16) * 4 + b2 / 64) :: (b2 % 64)
      :: packVals rest
  | [b0, b1] => [b0 / 4, (b0 % 4) * 16 + b1 / 16, (b1 % 16) * 4]
  | [b0] => [b0 / 4, (b0 % 4) * 16]
  | [] => []

/-- The `=` padding appended for a given input length remainder. -/
def b64Pad : Nat → List Char
  | 1 => ['=', '=']
  | 2 => ['=']
  | _ => []

/-- Standard (padded) base64 encoding of a byte list. -/
def b64encode (bs : List Nat) : String :=
  ⟨(packVals bs).map b64Char ++ b64Pad (bs.length % 3)⟩

/-- Unpack 6-bit values into bytes, four values to three bytes, with the
shortened tail groups; a lone trailing value contributes no byte. -/
def unpackVals : List Nat → List Nat
  | v0 :: v1 :: v2 :: v3 :: rest =>
    (v0 * 4 + v1 / 16) :: ((v1 % 16) * 16 + v2 / 4) :: ((v2 % 4) * 64 + v3)
      :: unpackVals rest
  | [v0, v1] => [v0 * 4 + v1 / 16]
  | [v0, v1, v2] => [v0 * 4 + v1 / 16, (v1 % 16) * 16 + v2 / 4]
  | _ => []

/-- base64 decoding as `Buffer.from(s, 'base64')` performs it on padded
base64: non-alphabet characters (including `=`) contribute nothing. -/
def b64decode (s : String) : List Nat :=
  unpackVals (s.data.filterMap b64Val)

/-! ## AttributeNormalizer: `GUIDtoString` -/

/-- The lowercase hex digits used by `Buffer.toString('hex')`. -/
def hexDigitsL : List Char := "0123456789abcdef".data

/-- The lowercase hex digit of a value below 16. -/
def hexDigL (n : Nat) : Char := hexDigitsL.getD n '0'

/-- A byte as two lowercase hex characters. -/
def byteHex (b : Nat) : List Char := [hexDigL (b / 16), hexDigL (b % 16)]

/-- `Buffer.toString('hex')` on a byte list. -/
def bytesToHex (bs : List Nat) : List Char := bs.flatMap byteHex

/-- The anchored sixteen-pair regex replacement of `GUIDtoString`: on a
32-character string the pairs are reordered to
`$4$3$2$1-$6$5-$8$7-$10$9-$16$15$14$13$12$11`; any other string is left
unchanged (the regex does not match, so `replace` is the identity). -/
def guidReorder (l : List Char) : List Char :=
  match l with
  | [h1, h2, h3, h4, h5, h6, h7, h8, h9, h10, h11, h12, h13, h14, h15, h16,
     h17, h18, h19, h20, h21, h22, h23, h24, h25, h26, h27, h28, h29, h30, h31, h32] =>
    [h7, h8, h5, h6, h3, h4, h1, h2, '-', h11, h12, h9, h10, '-',
     h15, h16, h13, h14, '-', h19, h20, h17, h18, '-',
     h31, h32, h29, h30, h27, h28, h25, h26, h23, h24, h21, h22]
  | other => other

/-- JavaScript `toUpperCase` restricted to the ASCII range the hex/dash
output inhabits. -/
def upChar (c : Char) : Char :=
  if 'a' ≤ c ∧ c ≤ 'z' then Char.ofNat (c.toNat - 32) else c

/-- `GUIDtoString`: `objectGUID && base64-decode |> hex |> reorder |>
toUpperCase || ''` — a falsy (empty) input or a falsy (empty) rendering
yields the empty string. -/
def GUIDtoString (objectGUID : String) : String :=
  if objectGUID = "" then ""
  else if (guidReorder (bytesToHex (b64decode objectGUID))).map upChar = [] then ""
  else ⟨(guidReorder (bytesToHex (b64decode objectGUID))).map upChar⟩

/-- The uppercase hex digits of the rendered GUID form. -/
def hexDigitsU : List Char := "0123456789ABCDEF".data

/-- Membership in the uppercase hex digits, as the well-formedness check
of one rendered character. -/
def isHexU (c : Char) : Bool := c ∈ hexDigitsU

/-- The value of an uppercase hex digit. -/
def hexValU (c : Char) : Nat := hexDigitsU.indexOf c

/-- The byte denoted by an uppercase hex pair. -/
def hexPairU (c1 c2 : Char) : Nat := hexValU c1 * 16 + hexValU c2

/-- A rendered GUID: 8-4-4-4-12 uppercase hex digits separated by dashes. -/
def wellFormedGUID (g : String) : Bool :=
  match g.data with
  | a1 :: a2 :: a3 :: a4 :: a5 :: a6 :: a7 :: a8 :: m1 ::
      b1 :: b2 :: b3 :: b4 :: m2 :: c1 :: c2 :: c3 :: c4 :: m3 ::
      d1 :: d2 :: d3 :: d4 :: m4 ::
      e1 :: e2 :: e3 :: e4 :: e5 :: e6 :: e7 :: e8 :: e9 :: e10 :: e11 :: e12 :: [] =>
    m1 == '-' && m2 == '-' && m3 == '-' && m4 == '-' &&
    isHexU a1 && isHexU a2 && isHexU a3 && isHexU a4 &&
    isHexU a5 && isHexU a6 && isHexU a7 && isHexU a8 &&
    isHexU b1 && isHexU b2 && isHexU b3 && isHexU b4 &&
    isHexU c1 && isHexU c2 && isHexU c3 && isHexU c4 &&
    isHexU d1 && isHexU d2 && isHexU d3 && isHexU d4 &&
    isHexU e1 && isHexU e2 && isHexU e3 && isHexU e4 &&
    isHexU e5 && isHexU e6 && isHexU e7 && isHexU e8 &&
    isHexU e9 && isHexU e10 && isHexU e11 && isHexU e12
  | _ => false

/-- The inverse rendering: recover the 16 transport-order bytes from a
rendered GUID (the empty list on a malformed one). -/
def guidToBytes (g : String) : List Nat :=
  match g.data with
  | a1 :: a2 :: a3 :: a4 :: a5 :: a6 :: a7 :: a8 :: _ ::
      b1 :: b2 :: b3 :: b4 :: _ :: c1 :: c2 :: c3 :: c4 :: _ ::
      d1 :: d2 :: d3 :: d4 :: _ ::
      e1 :: e2 :: e3 :: e4 :: e5 :: e6 :: e7 :: e8 :: e9 :: e10 :: e11 :: e12 :: [] =>
    [hexPairU a7 a8, hexPairU a5 a6, hexPairU a3 a4, hexPairU a1 a2,
     hexPairU b3 b4, hexPairU b1 b2, hexPairU c3 c4, hexPairU c1 c2,
     hexPairU d3 d4, hexPairU d1 d2,
     hexPairU e11 e12, hexPairU e9 e10, hexPairU e7 e8, hexPairU e5 e6,
     hexPairU e3 e4, hexPairU e1 e2]
  | _ => []

/-! ## AttributeNormalizer: `fromLDAPString` -/

/-- The matches of `/\d\d/g`: the left-to-right non-overlapping scan for
two consecutive decimal digits. -/
def digitPairs : List Char → List (Char × Char)
  | c0 :: c1 :: rest =>
    if c0.isDigit ∧ c1.isDigit then (c0, c1) :: digitPairs rest
    else digitPairs (c1 :: rest)
  | _ => []

/-- The numeric value of one matched digit pair. -/
def pairVal (p : Char × Char) : Nat :=
  (p.1.toNat - 48) * 10 + (p.2.toNat - 48)

/-- Days from the Unix epoch to a proleptic-Gregorian civil date
(month 1-based), the normalization `Date.UTC` applies. -/
def daysFromCivil (y m d : Int) : Int :=
  let y2 := if m ≤ 2 then y - 1 else y
  let era := Int.fdiv y2 400
  let yoe := y2 - era * 400
  let mp := if m > 2 then m - 3 else m + 9
  let doy := (153 * mp + 2) / 5 + d - 1
  let doe := yoe * 365 + yoe / 4 - yoe / 100 + doy
  era * 146097 + doe - 719468

/-- `Date.UTC(year, month0, day, hour, minute, second)` in milliseconds:
two-digit years map into 1900–1999, and the 0-based month is folded into
the year before the civil-date conversion. -/
def dateUTC (year month0 day hour minute second : Int) : Int :=
  let y := if 0 ≤ year ∧ year ≤ 99 then year + 1900 else year
  let ym := y * 12 + month0
  let y2 := Int.fdiv ym 12
  let m0 := ym - y2 * 12
  (daysFromCivil y2 (m0 + 1) day) * 86400000
    + hour * 3600000 + minute * 60000 + second * 1000

/-- The value of a JavaScript `Date`: `null` when the match failed,
an invalid date when a component was `NaN`, or an epoch instant. -/
inductive JSDate where
  | nullDate
  | invalid
  | instant (ms : Int)
deriving DecidableEq, Repr

/-- `fromLDAPString`: match all digit pairs; `null` when there are none;
otherwise build `Date.UTC` from the first seven pairs, where the year is
the concatenation of pairs 0 and 1 (`parseInt` of `b[0] + b[1]` reads only
the leading digits when `b[1]` is `undefined`) and a missing later pair is
`parseInt(undefined) = NaN`, making the date invalid. -/
def fromLDAPString (s : String) : JSDate :=
  match digitPairs s.data with
  | [] => .nullDate
  | p0 :: rest =>
    let b := p0 :: rest
    let year : Int :=
      match b.get? 1 with
      | some p1 => (pairVal p0) * 100 + pairVal p1
      | none => pairVal p0
    match b.get? 2, b.get? 3, b.get? 4, b.get? 5, b.get? 6 with
    | some mo, some d, some h2, some mi, some s2 =>
      .instant (dateUTC year ((pairVal mo : Int) - 1) (pairVal d) (pairVal h2)
        (pairVal mi) (pairVal s2))
    | _, _, _, _, _ => .invalid

/-! ## `sanitizeInput` and the unescaped-metacharacter predicate -/

/-- JavaScript `String.replace(/c/g, rep)` for a single-character pattern:
each occurrence is replaced, and replacements are not rescanned. -/
def jsReplAll (pat : Char) (rep : List Char) (l : List Char) : List Char :=
  l.flatMap fun c => if c = pat then rep else [c]

/-- `sanitizeInput`: the six chained global replaces of the source, in
source order — note the backslash pass runs after the `*`/`(`/`)` passes
and therefore re-escapes the backslashes those passes introduced. -/
def sanitizeInput (input : String) : String :=
  ⟨jsReplAll '/' ['\\', '2', 'f']
    (jsReplAll (Char.ofNat 0) ['\\', '0', '0']
      (jsReplAll '\\' ['\\', '5', 'c']
        (jsReplAll ')' ['\\', '2', '9']
          (jsReplAll '(' ['\\', '2', '8']
            (jsReplAll '*' ['\\', '2', 'a'] input.data)))))⟩

/-- The per-character composite of the six replace passes. -/
def sanChar (c : Char) : List Char :=
  if c = '*' then ['\\', '5', 'c', '2', 'a']
  else if c = '(' then ['\\', '5', 'c', '2', '8']
  else if c = ')' then ['\\', '5', 'c', '2', '9']
  else if c = '\\' then ['\\', '5', 'c']
  else if c = Char.ofNat 0 then ['\\', '0', '0']
  else if c = '/' then ['\\', '2', 'f']
  else [c]

/-- The filter metacharacters that must never appear raw: `*`, `(`, `)`,
NUL and `/` (a backslash is legal only as an escape introducer). -/
def isMetaRaw (c : Char) : Bool :=
  c = '*' || c = '(' || c = ')' || c = Char.ofNat 0 || c = '/'

/-- A hex digit as allowed after an escape introducer. -/
def isHexLU (c : Char) : Bool := c ∈ "0123456789abcdefABCDEF".data

/-- The scanner underlying the no-unescaped-metacharacter check: `st` is
the number of hex digits still owed to a pending escape (0 outside an
escape). A backslash owes two hex digits; a raw metacharacter outside an
escape fails; input ending inside an escape fails. -/
def noUnescSt : List Char → Nat → Bool
  | [], st => st = 0
  | c :: rest, 0 =>
    if c = '\\' then noUnescSt rest 2 else !(isMetaRaw c) && noUnescSt rest 0
  | c :: rest, st + 1 => isHexLU c && noUnescSt rest st

/-- No unescaped metacharacter: no raw `*` `(` `)` NUL `/` occurs, and
every backslash introduces a two-hex-digit escape. -/
def noUnesc (l : List Char) : Bool := noUnescSt l 0

/-- The final single-user search filter of `findUser`: the configured
template around the `\x7b\x7busername\x7d\x7d` placeholder with the sanitized
username substituted. -/
def buildFilter (pre post username : String) : String :=
  pre ++ sanitizeInput username ++ post

/-! ## Rendered form of a 16-byte GUID -/

/-- The rendered GUID of 16 transport-order bytes: hex pairs reordered to
`$4$3$2$1-$6$5-$8$7-$10$9-$16$15$14$13$12$11` and uppercased, spelled out
character by character. -/
def guidRender16 (b0 b1 b2 b3 b4 b5 b6 b7 b8 b9 b10 b11 b12 b13 b14 b15 : Nat) :
    String :=
  ⟨[upChar (hexDigL (b3 / 16)), upChar (hexDigL (b3 % 16)),
    upChar (hexDigL (b2 / 16)), upChar (hexDigL (b2 % 16)),
    upChar (hexDigL (b1 / 16)), upChar (hexDigL (b1 % 16)),
    upChar (hexDigL (b0 / 16)), upChar (hexDigL (b0 % 16)), '-',
    upChar (hexDigL (b5 / 16)), upChar (hexDigL (b5 % 16)),
    upChar (hexDigL (b4 / 16)), upChar (hexDigL (b4 % 16)), '-',
    upChar (hexDigL (b7 / 16)), upChar (hexDigL (b7 % 16)),
    upChar (hexDigL (b6 / 16)), upChar (hexDigL (b6 % 16)), '-',
    upChar (hexDigL (b9 / 16)), upChar (hexDigL (b9 % 16)),
    upChar (hexDigL (b8 / 16)), upChar (hexDigL (b8 % 16)), '-',
    upChar (hexDigL (b15 / 16)), upChar (hexDigL (b15 % 16)),
    upChar (hexDigL (b14 / 16)), upChar (hexDigL (b14 % 16)),
    upChar (hexDigL (b13 / 16)), upChar (hexDigL (b13 % 16)),
    upChar (hexDigL (b12 / 16)), upChar (hexDigL (b12 % 16)),
    upChar (hexDigL (b11 / 16)), upChar (hexDigL (b11 % 16)),
    upChar (hexDigL (b10 / 16)), upChar (hexDigL (b10 % 16))]⟩

/-! ## Concrete fixtures used by the evidence theorems -/

/-- A directory user fixture (already normalized: lower-case `dn` and
account name). -/
def uAlice : LdapUser := ⟨"cn=alice,dc=example", "alice", []⟩

/-- A lookup-written cache record for `uAlice` (sentinel password). -/
def recAlice : CacheRec := ⟨uAlice, LDAP_PASSWORD_NULL⟩

/-- A second user fixture. -/
def uBob : LdapUser := ⟨"cn=bob,dc=example", "bob", []⟩

/-- An authenticate environment whose live path finds and accepts
`uAlice` with group search unconfigured. -/
def envAlice : AuthEnv := ⟨some [uAlice], fun _ _ => true, fun u => .ok u⟩

/-- An authenticate environment whose live path finds and accepts
`uBob`. -/
def envBob : AuthEnv := ⟨some [uBob], fun _ _ => true, fun u => .ok u⟩

/-- A cache holding the prefixed keys a cache-aside read of `uAlice`
consults. -/
def cachePrefixedAlice : Cache :=
  [("dn:cn=alice,dc=example", recAlice), ("user:alice", recAlice)]

/-- A cache holding records under the bare keys `modify` deletes. -/
def cacheBareAlice : Cache :=
  [("cn=alice,dc=example", recAlice), ("alice", recAlice)]

/-- A cache holding an authenticated record for `uBob` with a concrete
bcrypt proof. -/
def cacheBob : Cache := [("user:bob", ⟨uBob, bhash "secret"⟩)]

/-- A cache holding a sentinel-proof record for `uAlice` under the
authenticate read key. -/
def cacheAliceSentinel : Cache := [("user:alice", recAlice)]

/-! # Claim theorems -/

/-- C6: `authenticate` with an empty password fails with the
missing-password error with no cache read and no directory operation
performed, for every username and cache configuration. -/
theorem authenticate_empty_password (env : AuthEnv) (hasCache : Bool)
    (c : Cache) (useCache : Bool) (username : String) :
    authenticate env hasCache c useCache username "" =
      (.error .noPasswordGiven, c, []) := by
  simp [authenticate]

/-- C9: `adminBind` is a no-op returning success when the admin state is
bound; otherwise it binds: it fails leaving the state unbound when no
`bindDN` is configured or the bind is rejected, and the state is bound
after the call only if it already was or the bind succeeded. -/
theorem adminBind_state_machine (bindDN : Option String) (outcome : Bool)
    (st : AdminState) :
    (st.adminBound = true → adminBind bindDN outcome st = (.ok true, st)) ∧
    (st.adminBound = false → bindDN = none →
      adminBind bindDN outcome st = (.error .bindDNUndefined, ⟨false⟩)) ∧
    (st.adminBound = false → bindDN ≠ none → outcome = false →
      adminBind bindDN outcome st = (.error .adminBindError, ⟨false⟩)) ∧
    (st.adminBound = false → bindDN ≠ none → outcome = true →
      adminBind bindDN outcome st = (.ok true, ⟨true⟩)) ∧
    ((adminBind bindDN outcome st).2.adminBound = true →
      st.adminBound = true ∨ (bindDN ≠ none ∧ outcome = true)) := by
  obtain ⟨b⟩ := st
  cases b <;> cases bindDN <;> cases outcome <;>
    simp [adminBind, onConnectAdmin]

/-- Witness for C9 at a concrete input: an unbound state with a
configured `bindDN` and a successful bind transitions to bound. -/
theorem adminBind_state_machine_witness :
    adminBind (some "cn=admin,dc=example") true ⟨false⟩ = (.ok true, ⟨true⟩) :=
  (adminBind_state_machine (some "cn=admin,dc=example") true ⟨false⟩).2.2.2.1
    rfl (by simp) rfl

/-- C10: whenever `adminBind` succeeds, `modify` leaves the caller's
`data` array with every `thumbnailPhoto`/`jpegPhoto` change's values
replaced by the skip marker — on the user-bind path and the admin path
alike, whether or not the directory modify succeeds. -/
theorem modify_redacts_photo_values (env : ModifyEnv) (hasCache : Bool)
    (c : Cache) (dn : String) (data : List Change) (username : Option String)
    (password : Option String) (h : env.adminBindOk = true) :
    (modify env hasCache c dn data username password).2.2 = redactData data := by
  unfold modify
  cases password <;>
    simp only [h, Bool.not_true, if_neg (by simp : ¬ (true = false))] <;>
    rcases env.modifyResult with _ | e <;>
    simp_all <;>
    split <;>
    simp

/-- Witness for C10 at a concrete input: an admin-path modify of a
`thumbnailPhoto` change redacts the caller's array. -/
theorem modify_redacts_photo_values_witness :
    (modify ⟨true, fun _ _ => true, none⟩ true [] "cn=alice,dc=example"
        [⟨⟨"thumbnailPhoto", "rawbytes"⟩⟩] none none).2.2 =
      [⟨⟨"thumbnailPhoto", "...skipped..."⟩⟩] := by
  rw [modify_redacts_photo_values _ _ _ _ _ _ _ rfl]
  decide

/-- C1 (code-bug evidence): the cache invalidation of `modify` does not
do what its debug log says. First, `modify` deletes the bare keys `dn`
and `username`, while every cache-aside read uses the prefixed keys
`dn:<dn>` / `user:<username>`: after a successful admin-path modify of
alice, both prefixed records survive and a subsequent `searchByDN` read
still answers from the stale cache even with the directory unreachable.
Second, on the user-bind path a FAILED directory modify still runs the
deletions (the `reject` lacks the early `return` the admin path has):
with bare-keyed records present, a failing modify reports the error yet
empties the cache. -/
theorem modify_cache_invalidation_bug :
    (modify ⟨true, fun _ _ => true, none⟩ true cachePrefixedAlice
        "cn=alice,dc=example" [] (some "alice") none =
      (.ok true, cachePrefixedAlice, [])) ∧
    (searchByDN none true
        (modify ⟨true, fun _ _ => true, none⟩ true cachePrefixedAlice
          "cn=alice,dc=example" [] (some "alice") none).2.1
        true "cn=alice,dc=example").1 = .ok uAlice ∧
    (modify ⟨true, fun _ _ => true, some .noSuchObject⟩ true cacheBareAlice
        "cn=alice,dc=example" [] (some "alice") (some "secret") =
      (.error .noSuchObject, [], [])) :=
  ⟨rfl, rfl, rfl⟩

/-- C5: for the single-entry lookups (`findUser` by username on a cache
miss, and `searchByDN` on a cache miss), a search returning exactly one
entry succeeds with that entry, zero entries fail with the not-found
error, and more than one entry fails with the ambiguous-result error. -/
theorem lookup_single_entry_semantics (search : Option (List LdapUser))
    (hasCache : Bool) (c : Cache) (useCache : Bool)
    (username userByDN : String) (u : LdapUser) (l : List LdapUser)
    (hu : username ≠ "")
    (hm1 : cacheGet c username = none)
    (hm2 : cacheGet c ("dn:" ++ userByDN) = none) :
    (search = some [u] →
      (findUserM search hasCache c useCache username).1 = .ok u ∧
      (searchByDN search hasCache c useCache userByDN).1 = .ok u) ∧
    (search = some [] →
      (findUserM search hasCache c useCache username).1 = .error .noSuchObject ∧
      (searchByDN search hasCache c useCache userByDN).1 = .error .noSuchObject) ∧
    (search = some l → 2 ≤ l.length →
      (findUserM search hasCache c useCache username).1 =
        .error (.unexpectedMatches l.length) ∧
      (searchByDN search hasCache c useCache userByDN).1 =
        .error (.unexpectedMatches l.length)) := by
  refine ⟨?_, ?_, ?_⟩ <;> rintro rfl
  · simp [findUserM, searchByDN, hu, hm1, hm2]
  · simp [findUserM, searchByDN, hu, hm1, hm2]
  · intro hl
    rcases l with _ | ⟨a, _ | ⟨b, r⟩⟩
    · simp at hl
    · simp at hl
    · simp [findUserM, searchByDN, hu, hm1, hm2]

/-- Witness for C5 at concrete inputs: a two-entry search outcome is
rejected as ambiguous for both lookups. -/
theorem lookup_single_entry_semantics_witness :
    (findUserM (some [uAlice, uBob]) true [] true "alice").1 =
      .error (.unexpectedMatches 2) ∧
    (searchByDN (some [uAlice, uBob]) true [] true "cn=alice,dc=example").1 =
      .error (.unexpectedMatches 2) := by
  have h := (lookup_single_entry_semantics (some [uAlice, uBob]) true [] true
    "alice" "cn=alice,dc=example" uAlice [uAlice, uBob]
    (by decide) (by decide) (by decide)).2.2 rfl (by decide)
  simpa using h

/-! ## Helper lemmas for the authenticate theorems -/

/-- The bcrypt stand-in never produces the empty hash. -/
theorem bhash_ne_empty (pw : String) : bhash pw ≠ "" := by
  intro h
  have hd : (bhash pw).data = '2' :: 'b' :: '$' :: pw.data := by
    simp [bhash]
  rw [h] at hd
  simp at hd

/-- A password-check success forces a nonempty stored proof. -/
theorem check_ne_empty (password proof : String)
    (h : proof = LDAP_PASSWORD_NULL ∨ bcompare password proof) : proof ≠ "" := by
  rcases h with h | h
  · rw [h]; decide
  · have : proof = bhash password := by
      simpa [bcompare] using h
    rw [this]; exact bhash_ne_empty password


/-- `findUser` performs no cached-hit logging. -/
theorem fromCacheLog_not_mem_findUserM (s : Option (List LdapUser)) (hc : Bool)
    (c : Cache) (uc : Bool) (un : String) :
    Eff.fromCacheLog ∉ (findUserM s hc c uc un).2 := by
  unfold findUserM
  repeat' split
  all_goals simp_all

/-- `authenticateInternal` performs no cached-hit logging. -/
theorem fromCacheLog_not_mem_internal (env : AuthEnv) (hc : Bool) (c : Cache)
    (un pw : String) :
    Eff.fromCacheLog ∉ (authenticateInternal env hc c un pw).2 := by
  have hfu := fromCacheLog_not_mem_findUserM env.search hc c true un
  unfold authenticateInternal
  rcases h : findUserM env.search hc c true un with ⟨r, effs⟩
  rw [h] at hfu
  rcases r with e | u
  · simpa using hfu
  · simp only []
    split
    · split <;> simp_all
    · simp_all

/-- The live path performs no cached-hit logging. -/
theorem fromCacheLog_not_mem_liveAuth (env : AuthEnv) (hc : Bool) (c : Cache)
    (un pw : String) :
    Eff.fromCacheLog ∉ (liveAuth env hc c un pw).2.2 := by
  have hin := fromCacheLog_not_mem_internal env hc c un pw
  unfold liveAuth
  rcases h : authenticateInternal env hc c un pw with ⟨r, effs⟩
  rw [h] at hin
  rcases r with e | u <;> simpa using hin

/-- C7: with caching on, `authenticate` takes the cached branch (observable
through its `From cache` debug log) exactly when a record is present under
`user:<username>` with a nonempty account name whose stored proof is the
sentinel or bcrypt-matches the supplied password; a qualifying record is
answered from the cache, and a present record failing the password check is
treated as a miss with the live path's outcome. (The code additionally
requires a nonempty stored proof, which the sentinel-or-match condition
already implies.) -/
theorem authenticate_cache_hit_iff (env : AuthEnv) (c : Cache)
    (username password : String) (hpw : password ≠ "") :
    (Eff.fromCacheLog ∈ (authenticate env true c true username password).2.2 ↔
      ∃ rec, cacheGet c ("user:" ++ username) = some rec ∧
        rec.user.sAMAccountName ≠ "" ∧
        (rec.password = LDAP_PASSWORD_NULL ∨ bcompare password rec.password)) ∧
    (∀ rec, cacheGet c ("user:" ++ username) = some rec →
      rec.user.sAMAccountName ≠ "" →
      (rec.password = LDAP_PASSWORD_NULL ∨ bcompare password rec.password) →
      (authenticate env true c true username password).1 = .ok rec.user) ∧
    (∀ rec, cacheGet c ("user:" ++ username) = some rec →
      ¬ (rec.password = LDAP_PASSWORD_NULL ∨ bcompare password rec.password) →
      authenticate env true c true username password =
        ((liveAuth env true c username password).1,
         (liveAuth env true c username password).2.1,
         .cacheRead ("user:" ++ username) ::
           (liveAuth env true c username password).2.2)) := by
  have hlive := fromCacheLog_not_mem_liveAuth env true c username password
  rcases hg : cacheGet c ("user:" ++ username) with _ | rec
  · refine ⟨?_, ?_, ?_⟩
    · constructor
      · intro hmem
        simp [authenticate, hpw, hg, hlive] at hmem
      · rintro ⟨rec2, hrec2, -⟩
        simp at hrec2
    · intro rec2 hrec2
      simp at hrec2
    · intro rec2 hrec2
      simp at hrec2
  · by_cases hcond : rec.user.sAMAccountName ≠ "" ∧ rec.password ≠ "" ∧
      (rec.password = LDAP_PASSWORD_NULL ∨ bcompare password rec.password)
    · refine ⟨?_, ?_, ?_⟩
      · constructor
        · intro _
          exact ⟨rec, rfl, hcond.1, hcond.2.2⟩
        · intro _
          simp [authenticate, hpw, hg, hcond, hitBranch]
      · intro rec2 hrec2 hsam2 hchk2
        injection hrec2 with hrec2
        subst hrec2
        simp [authenticate, hpw, hg, hcond, hitBranch]
      · intro rec2 hrec2 hnot
        injection hrec2 with hrec2
        subst hrec2
        exact absurd hcond.2.2 hnot
    · refine ⟨?_, ?_, ?_⟩
      · constructor
        · intro hmem
          simp [authenticate, hpw, hg, hcond, hlive] at hmem
        · rintro ⟨rec2, hrec2, hsam2, hchk2⟩
          injection hrec2 with hrec2
          subst hrec2
          exact absurd ⟨hsam2, check_ne_empty password rec.password hchk2, hchk2⟩
            hcond
      · intro rec2 hrec2 hsam2 hchk2
        injection hrec2 with hrec2
        subst hrec2
        exact absurd ⟨hsam2, check_ne_empty password rec.password hchk2, hchk2⟩
          hcond
      · intro rec2 hrec2 hnot
        injection hrec2 with hrec2
        subst hrec2
        simp [authenticate, hpw, hg, hcond]

/-- Witness for C7 at a concrete input: a sentinel-proof record for alice
is a cached hit. -/
theorem authenticate_cache_hit_iff_witness :
    (authenticate envAlice true cacheAliceSentinel true "alice" "secret").1 =
      .ok recAlice.user :=
  (authenticate_cache_hit_iff envAlice cacheAliceSentinel "alice" "secret"
      (by decide)).2.1 recAlice rfl (by decide) (Or.inl rfl)

/-- C2 counterexample: a cached hit whose stored proof is the no-password
sentinel and whose background live re-authentication returns a value equal
to the cached entry. The claim requires the cache entry to be overwritten
with a fresh password hash (because the proof was the sentinel), but the
code compares only the serialized values and leaves the sentinel record
untouched. -/
theorem authenticate_refresh_sentinel_counterexample :
    recAlice.password = LDAP_PASSWORD_NULL ∧
    (authenticateInternal envAlice true cacheAliceSentinel "alice" "secret").1 =
      .ok recAlice.user ∧
    (authenticate envAlice true cacheAliceSentinel true "alice" "secret").1 =
      .ok recAlice.user ∧
    (authenticate envAlice true cacheAliceSentinel true "alice" "secret").2.1 =
      cacheAliceSentinel ∧
    cacheGet
        ((authenticate envAlice true cacheAliceSentinel true "alice" "secret").2.1)
        "user:alice" = some ⟨uAlice, LDAP_PASSWORD_NULL⟩ :=
  ⟨rfl, rfl, rfl, rfl, rfl⟩

/-- C2 amended: on a cached hit, the background re-authentication
overwrites the cache entry (under the live user's account-name key, with a
fresh password hash) exactly when the live result differs from the cached
entry by value comparison; when they are equal the entry is left unchanged
even if the stored proof was the sentinel, and a background failure leaves
the cache unchanged. -/
theorem authenticate_refresh_overwrite_iff_differs (env : AuthEnv) (c : Cache)
    (username password : String) (rec : CacheRec)
    (hpw : password ≠ "")
    (hget : cacheGet c ("user:" ++ username) = some rec)
    (hsam : rec.user.sAMAccountName ≠ "")
    (hchk : rec.password = LDAP_PASSWORD_NULL ∨ bcompare password rec.password) :
    (authenticate env true c true username password).1 = .ok rec.user ∧
    (∀ u, (authenticateInternal env true c username password).1 = .ok u →
      (authenticate env true c true username password).2.1 =
        if u = rec.user then c
        else cacheSet c ("user:" ++ u.sAMAccountName) ⟨u, bhash password⟩) ∧
    (∀ e, (authenticateInternal env true c username password).1 = .error e →
      (authenticate env true c true username password).2.1 = c) := by
  have hp := check_ne_empty password rec.password hchk
  have hcond : rec.user.sAMAccountName ≠ "" ∧ rec.password ≠ "" ∧
      (rec.password = LDAP_PASSWORD_NULL ∨ bcompare password rec.password) :=
    ⟨hsam, hp, hchk⟩
  refine ⟨?_, ?_, ?_⟩
  · simp [authenticate, hpw, hget, hcond, hitBranch]
  · intro u hu
    by_cases heq : u = rec.user
    · subst heq
      simp [authenticate, hpw, hget, hcond, hitBranch, hu]
    · simp [authenticate, hpw, hget, hcond, hitBranch, hu, heq]
  · intro e he
    simp [authenticate, hpw, hget, hcond, hitBranch, he]

/-- Witness for the amended C2 at a concrete input: a concrete-proof hit
whose live result equals the cached entry leaves the cache unchanged. -/
theorem authenticate_refresh_overwrite_iff_differs_witness :
    (authenticate envBob true cacheBob true "bob" "secret").1 = .ok uBob ∧
    (authenticate envBob true cacheBob true "bob" "secret").2.1 = cacheBob := by
  have h := authenticate_refresh_overwrite_iff_differs envBob cacheBob
    "bob" "secret" ⟨uBob, bhash "secret"⟩ (by decide) rfl (by decide)
    (Or.inr (by decide))
  refine ⟨h.1, ?_⟩
  have h2 := h.2.1 uBob rfl
  simpa using h2

/-- C4 counterexample: `"12"` contains one digit pair — fewer than
seven — yet `fromLDAPString` returns an invalid `Date`, not `null`: the
match succeeds and the missing pairs become `NaN` components. -/
theorem fromLDAPString_few_pairs_counterexample :
    (digitPairs "12".data).length = 1 ∧
    fromLDAPString "12" = .invalid ∧
    fromLDAPString "12" ≠ .nullDate :=
  ⟨rfl, rfl, by decide⟩

/-- C4 amended: `"20230615143022Z"` maps to exactly the UTC instant
2023-06-15T14:30:22Z (epoch 1686839422000 ms); a string containing no
digit pair maps to `null`; and a string containing between one and six
digit pairs maps to an invalid `Date` (not `null`, not an error). -/
theorem fromLDAPString_normalization :
    fromLDAPString "20230615143022Z" = .instant 1686839422000 ∧
    (∀ s : String, digitPairs s.data = [] → fromLDAPString s = .nullDate) ∧
    (∀ s : String, digitPairs s.data ≠ [] → (digitPairs s.data).length < 7 →
      fromLDAPString s = .invalid) := by
  refine ⟨rfl, ?_, ?_⟩
  · intro s hs
    unfold fromLDAPString
    rw [hs]
  · intro s hne hlen
    unfold fromLDAPString
    rcases hdp : digitPairs s.data with _ | ⟨p0, rest⟩
    · exact absurd hdp hne
    · rw [hdp] at hlen
      have h6 : (p0 :: rest).get? 6 = none := by
        rw [List.get?_eq_none]
        simpa using Nat.lt_succ_iff.mp hlen
      simp only [h6]
      rcases (p0 :: rest).get? 2 with _ | v2 <;>
        rcases (p0 :: rest).get? 3 with _ | v3 <;>
        rcases (p0 :: rest).get? 4 with _ | v4 <;>
        rcases (p0 :: rest).get? 5 with _ | v5 <;>
        rfl

/-- Witness for C4 at concrete inputs: a pairless string is `null` and a
two-pair string is an invalid date. -/
theorem fromLDAPString_normalization_witness :
    fromLDAPString "Z" = .nullDate ∧ fromLDAPString "1234" = .invalid :=
  ⟨fromLDAPString_normalization.2.1 "Z" rfl,
   fromLDAPString_normalization.2.2 "1234" (by decide) (by decide)⟩

/-! ## Helper lemmas for the sanitization theorem -/

/-- The six replace passes act on a single character as `sanChar`. -/
theorem sanChar_single (c : Char) :
    jsReplAll '/' ['\\', '2', 'f']
      (jsReplAll (Char.ofNat 0) ['\\', '0', '0']
        (jsReplAll '\\' ['\\', '5', 'c']
          (jsReplAll ')' ['\\', '2', '9']
            (jsReplAll '(' ['\\', '2', '8']
              (jsReplAll '*' ['\\', '2', 'a'] [c]))))) = sanChar c := by
  by_cases h1 : c = '*'
  · subst h1; rfl
  by_cases h2 : c = '('
  · subst h2; rfl
  by_cases h3 : c = ')'
  · subst h3; rfl
  by_cases h4 : c = '\\'
  · subst h4; rfl
  by_cases h5 : c = Char.ofNat 0
  · subst h5; rfl
  by_cases h6 : c = '/'
  · subst h6; rfl
  simp [jsReplAll, sanChar, h1, h2, h3, h4, h5, h6]

/-- Each replace pass distributes over list append. -/
theorem jsReplAll_append (p : Char) (r a b : List Char) :
    jsReplAll p r (a ++ b) = jsReplAll p r a ++ jsReplAll p r b := by
  simp [jsReplAll]

/-- `sanitizeInput` is the per-character map `sanChar` over the input. -/
theorem sanitize_core : ∀ l : List Char,
    jsReplAll '/' ['\\', '2', 'f']
      (jsReplAll (Char.ofNat 0) ['\\', '0', '0']
        (jsReplAll '\\' ['\\', '5', 'c']
          (jsReplAll ')' ['\\', '2', '9']
            (jsReplAll '(' ['\\', '2', '8']
              (jsReplAll '*' ['\\', '2', 'a'] l))))) = l.flatMap sanChar
  | [] => rfl
  | c :: t => by
    have h1 : c :: t = [c] ++ t := rfl
    rw [h1, jsReplAll_append, jsReplAll_append, jsReplAll_append, jsReplAll_append,
      jsReplAll_append, jsReplAll_append, sanChar_single, sanitize_core t,
      List.flatMap_append]
    simp

/-- The character-list view of `sanitizeInput`. -/
theorem sanitize_data (u : String) :
    (sanitizeInput u).data = u.data.flatMap sanChar :=
  sanitize_core u.data

/-- Prepending one sanitized character block preserves the
no-unescaped-metacharacter invariant. -/
theorem noUnesc_sanChar_append (c : Char) (rest : List Char)
    (h : noUnesc rest = true) : noUnesc (sanChar c ++ rest) = true := by
  by_cases h1 : c = '*'
  · subst h1; simpa [sanChar, noUnesc, noUnescSt, isHexLU, isMetaRaw] using h
  by_cases h2 : c = '('
  · subst h2; simpa [sanChar, noUnesc, noUnescSt, isHexLU, isMetaRaw] using h
  by_cases h3 : c = ')'
  · subst h3; simpa [sanChar, noUnesc, noUnescSt, isHexLU, isMetaRaw] using h
  by_cases h4 : c = '\\'
  · subst h4; simpa [sanChar, noUnesc, noUnescSt, isHexLU, isMetaRaw] using h
  by_cases h5 : c = Char.ofNat 0
  · subst h5; simpa [sanChar, noUnesc, noUnescSt, isHexLU, isMetaRaw] using h
  by_cases h6 : c = '/'
  · subst h6; simpa [sanChar, noUnesc, noUnescSt, isHexLU, isMetaRaw] using h
  simpa [sanChar, noUnesc, noUnescSt, isMetaRaw, h1, h2, h3, h4, h5, h6] using h

/-- The sanitized rendering of any character list passes the
no-unescaped-metacharacter check. -/
theorem noUnesc_flatMap (l : List Char) : noUnesc (l.flatMap sanChar) = true := by
  induction l with
  | nil => rfl
  | cons c t ih =>
    rw [List.flatMap_cons]
    exact noUnesc_sanChar_append c _ ih

/-- The scanner is closed under append when the first part scans clean
from the given state and the second scans clean from outside an escape. -/
theorem noUnescSt_append : ∀ (a : List Char) (st : Nat) (b : List Char),
    noUnescSt a st = true → noUnescSt b 0 = true → noUnescSt (a ++ b) st = true
  | [], st, b, ha, hb => by
    have hst : st = 0 := by simpa [noUnescSt] using ha
    subst hst
    simpa using hb
  | c :: rest, 0, b, ha, hb => by
    by_cases hc : c = '\\'
    · subst hc
      simp only [noUnescSt, if_pos rfl] at ha
      simpa [noUnescSt] using noUnescSt_append rest 2 b ha hb
    · simp only [noUnescSt, if_neg hc, Bool.and_eq_true] at ha
      simp only [List.cons_append, noUnescSt, if_neg hc, Bool.and_eq_true]
      exact ⟨ha.1, noUnescSt_append rest 0 b ha.2 hb⟩
  | c :: rest, st + 1, b, ha, hb => by
    simp only [noUnescSt, Bool.and_eq_true] at ha
    simp only [List.cons_append, noUnescSt, Bool.and_eq_true]
    exact ⟨ha.1, noUnescSt_append rest st b ha.2 hb⟩

/-- The no-unescaped-metacharacter check is closed under append. -/
theorem noUnesc_append (a b : List Char) (ha : noUnesc a = true)
    (hb : noUnesc b = true) : noUnesc (a ++ b) = true :=
  noUnescSt_append a 0 b ha hb

/-- C8: substituting the sanitized username into a search-filter template
leaves no unescaped metacharacter: the sanitized username itself contains
none, and the assembled filter contains none provided the template's own
fixed parts contain none. -/
theorem sanitized_filter_no_unescaped_meta (username pre post : String)
    (hpre : noUnesc pre.data = true) (hpost : noUnesc post.data = true) :
    noUnesc (sanitizeInput username).data = true ∧
    noUnesc (buildFilter pre post username).data = true := by
  have hs : noUnesc (sanitizeInput username).data = true := by
    rw [sanitize_data]
    exact noUnesc_flatMap username.data
  refine ⟨hs, ?_⟩
  have hb : (buildFilter pre post username).data =
      (pre.data ++ (sanitizeInput username).data) ++ post.data := by
    simp [buildFilter]
  rw [hb]
  exact noUnesc_append _ _ (noUnesc_append _ _ hpre hs) hpost

/-- Witness for C8 at a concrete input: a metacharacter-laden username
substituted into an equality template yields a clean filter. -/
theorem sanitized_filter_no_unescaped_meta_witness :
    noUnesc (sanitizeInput "*ad(min)/x\\").data = true ∧
    noUnesc (buildFilter "sAMAccountName=" "" "*ad(min)/x\\").data = true :=
  sanitized_filter_no_unescaped_meta "*ad(min)/x\\" "sAMAccountName=" ""
    (by decide) (by decide)

/-! ## Helper lemmas for the GUID theorems -/

/-- Unpacking inverts packing on byte lists. -/
theorem unpack_pack : ∀ bs : List Nat, (∀ b ∈ bs, b < 256) →
    unpackVals (packVals bs) = bs
  | [], _ => rfl
  | [b0], h => by
    have h0 : b0 < 256 := h b0 (by simp)
    simp only [packVals, unpackVals, List.cons.injEq, and_true]
    omega
  | [b0, b1], h => by
    have h0 : b0 < 256 := h b0 (by simp)
    have h1 : b1 < 256 := h b1 (by simp)
    simp only [packVals, unpackVals, List.cons.injEq, and_true]
    omega
  | b0 :: b1 :: b2 :: rest, h => by
    have h0 : b0 < 256 := h b0 (by simp)
    have h1 : b1 < 256 := h b1 (by simp)
    have h2 : b2 < 256 := h b2 (by simp)
    have ih := unpack_pack rest (fun b hb => h b (by simp [hb]))
    simp only [packVals, unpackVals, ih, List.cons.injEq, and_true]
    omega

/-- Packed six-bit values are below 64. -/
theorem packVals_lt : ∀ bs : List Nat, (∀ b ∈ bs, b < 256) →
    ∀ v ∈ packVals bs, v < 64
  | [], _, v, hv => by simp [packVals] at hv
  | [b0], h, v, hv => by
    have h0 : b0 < 256 := h b0 (by simp)
    simp [packVals] at hv
    rcases hv with rfl | rfl <;> omega
  | [b0, b1], h, v, hv => by
    have h0 : b0 < 256 := h b0 (by simp)
    have h1 : b1 < 256 := h b1 (by simp)
    simp [packVals] at hv
    rcases hv with rfl | rfl | rfl <;> omega
  | b0 :: b1 :: b2 :: rest, h, v, hv => by
    have h0 : b0 < 256 := h b0 (by simp)
    have h1 : b1 < 256 := h b1 (by simp)
    have h2 : b2 < 256 := h b2 (by simp)
    simp only [packVals, List.mem_cons] at hv
    rcases hv with rfl | rfl | rfl | rfl | hv
    · omega
    · omega
    · omega
    · omega
    · exact packVals_lt rest (fun b hb => h b (by simp [hb])) v hv

/-- Decoding an alphabet character recovers its six-bit value. -/
theorem b64Val_b64Char : ∀ v : Nat, v < 64 → b64Val (b64Char v) = some v := by
  decide

/-- Filtering the encoded characters recovers the six-bit values. -/
theorem filterMap_b64Char : ∀ vs : List Nat, (∀ v ∈ vs, v < 64) →
    (vs.map b64Char).filterMap b64Val = vs
  | [], _ => rfl
  | v :: t, h => by
    have hv : v < 64 := h v (by simp)
    simp [List.filterMap_cons, b64Val_b64Char v hv,
      filterMap_b64Char t (fun x hx => h x (by simp [hx]))]

/-- Padding characters contribute nothing to decoding. -/
theorem b64Pad_filterMap : ∀ r : Nat, (b64Pad r).filterMap b64Val = []
  | 0 => rfl
  | 1 => rfl
  | 2 => rfl
  | _ + 3 => rfl

/-- base64 decoding inverts encoding on byte lists. -/
theorem b64_roundtrip (bs : List Nat) (h : ∀ b ∈ bs, b < 256) :
    b64decode (b64encode bs) = bs := by
  show unpackVals
      ((((packVals bs).map b64Char) ++ b64Pad (bs.length % 3)).filterMap b64Val)
      = bs
  rw [List.filterMap_append, filterMap_b64Char (packVals bs) (packVals_lt bs h),
    b64Pad_filterMap, List.append_nil]
  exact unpack_pack bs h

/-- Uppercasing leaves the dash alone. -/
theorem upChar_dash : upChar '-' = '-' := by decide

set_option maxRecDepth 4096 in
/-- Reading back the uppercased hex pair of a byte recovers the byte. -/
theorem hexByte_round : ∀ b : Nat, b < 256 →
    hexPairU (upChar (hexDigL (b / 16))) (upChar (hexDigL (b % 16))) = b := by
  decide

set_option maxRecDepth 4096 in
/-- The uppercased hex pair of a byte is made of uppercase hex digits. -/
theorem hexByte_wf : ∀ b : Nat, b < 256 →
    isHexU (upChar (hexDigL (b / 16))) = true ∧
    isHexU (upChar (hexDigL (b % 16))) = true := by
  decide

/-- Membership view of the uppercase-hex check. -/
theorem hexU_mem (c : Char) (h : isHexU c = true) : c ∈ hexDigitsU := by
  simpa [isHexU] using h

/-- The value of an uppercase hex digit is below 16. -/
theorem hexU_lt (c : Char) (h : isHexU c = true) : hexValU c < 16 :=
  List.indexOf_lt_length.mpr (hexU_mem c h)

/-- A pair of uppercase hex digits denotes a byte. -/
theorem hexPairU_lt (c1 c2 : Char) (h1 : isHexU c1 = true)
    (h2 : isHexU c2 = true) : hexPairU c1 c2 < 256 := by
  have k1 := hexU_lt c1 h1
  have k2 := hexU_lt c2 h2
  unfold hexPairU
  omega

/-- Rendering the byte of an uppercase hex pair recovers both digits. -/
theorem hexU_round : ∀ c1 ∈ hexDigitsU, ∀ c2 ∈ hexDigitsU,
    upChar (hexDigL (hexPairU c1 c2 / 16)) = c1 ∧
    upChar (hexDigL (hexPairU c1 c2 % 16)) = c2 := by
  decide

/-- High-digit round trip of an uppercase hex pair. -/
theorem hexpair_hi (c1 c2 : Char) (h1 : isHexU c1 = true)
    (h2 : isHexU c2 = true) :
    upChar (hexDigL (hexPairU c1 c2 / 16)) = c1 :=
  (hexU_round c1 (hexU_mem c1 h1) c2 (hexU_mem c2 h2)).1

/-- Low-digit round trip of an uppercase hex pair. -/
theorem hexpair_lo (c1 c2 : Char) (h1 : isHexU c1 = true)
    (h2 : isHexU c2 = true) :
    upChar (hexDigL (hexPairU c1 c2 % 16)) = c2 :=
  (hexU_round c1 (hexU_mem c1 h1) c2 (hexU_mem c2 h2)).2

/-- The regex replacement leaves any non-32-character string unchanged. -/
theorem guidReorder_ne32 (l : List Char) (hl : l.length ≠ 32) :
    guidReorder l = l := by
  unfold guidReorder
  split
  · simp at hl
  · rfl

/-- The hex rendering doubles the length. -/
theorem bytesToHex_length (bs : List Nat) :
    (bytesToHex bs).length = 2 * bs.length := by
  induction bs with
  | nil => rfl
  | cons b t ih =>
    unfold bytesToHex at ih ⊢
    rw [List.flatMap_cons, List.length_append, ih]
    simp [byteHex]
    omega

/-- Rendering 16 bytes through `b64encode` and `GUIDtoString` yields the
spelled-out reordered uppercase form. -/
theorem guid_render (b0 b1 b2 b3 b4 b5 b6 b7 b8 b9 b10 b11 b12 b13 b14 b15 : Nat)
    (h0 : b0 < 256)
    (h1 : b1 < 256)
    (h2 : b2 < 256)
    (h3 : b3 < 256)
    (h4 : b4 < 256)
    (h5 : b5 < 256)
    (h6 : b6 < 256)
    (h7 : b7 < 256)
    (h8 : b8 < 256)
    (h9 : b9 < 256)
    (h10 : b10 < 256)
    (h11 : b11 < 256)
    (h12 : b12 < 256)
    (h13 : b13 < 256)
    (h14 : b14 < 256)
    (h15 : b15 < 256) :
    GUIDtoString (b64encode [b0, b1, b2, b3, b4, b5, b6, b7, b8, b9, b10, b11, b12, b13, b14, b15]) =
      guidRender16 b0 b1 b2 b3 b4 b5 b6 b7 b8 b9 b10 b11 b12 b13 b14 b15 := by
  have hball : ∀ b ∈ [b0, b1, b2, b3, b4, b5, b6, b7, b8, b9, b10, b11, b12, b13, b14, b15], b < 256 := by
    intro b hb
    simp only [List.mem_cons, List.not_mem_nil, or_false] at hb
    rcases hb with rfl | rfl | rfl | rfl | rfl | rfl | rfl | rfl | rfl | rfl | rfl | rfl | rfl | rfl | rfl | rfl <;> assumption
  have hdec := b64_roundtrip [b0, b1, b2, b3, b4, b5, b6, b7, b8, b9, b10, b11, b12, b13, b14, b15] hball
  have hne : b64encode [b0, b1, b2, b3, b4, b5, b6, b7, b8, b9, b10, b11, b12, b13, b14, b15] ≠ "" := by
    have hd : (b64encode [b0, b1, b2, b3, b4, b5, b6, b7, b8, b9, b10, b11, b12, b13, b14, b15]).data.length = 24 := by
      simp [b64encode, packVals, b64Pad]
    intro hcontra
    rw [hcontra] at hd
    simp at hd
  unfold GUIDtoString
  rw [if_neg hne, hdec]
  simp [bytesToHex, byteHex, guidReorder, guidRender16, upChar_dash]

/-- C3 counterexample: the base64 input `"AA=="` decodes to a single byte,
for which the claim demands the empty string, but `GUIDtoString` returns
the uppercased hex passthrough `"00"`. -/
theorem GUIDtoString_wrong_length_counterexample :
    (b64decode "AA==").length = 1 ∧
    GUIDtoString "AA==" = "00" ∧
    GUIDtoString "AA==" ≠ "" :=
  ⟨rfl, rfl, by decide⟩

/-- C3 amended: `GUIDtoString` is total and never throws; the empty input
yields the empty string; an input whose decoded byte length is not 16
yields the uppercased hex rendering of the decoded bytes unchanged (not
the empty string, except when nothing decodes); and on 16-byte inputs
rendered through base64 it is a bijection onto the dashed uppercase
hexadecimal GUID forms: every 16-byte list renders to a well-formed GUID
string from which `guidToBytes` recovers exactly the input bytes
(injectivity), and every well-formed GUID string is the rendering of some
16-byte list (surjectivity). -/
theorem GUIDtoString_normalization :
    (GUIDtoString "" = "") ∧
    (∀ s : String, s ≠ "" → (b64decode s).length ≠ 16 →
      GUIDtoString s = ⟨(bytesToHex (b64decode s)).map upChar⟩) ∧
    (∀ b0 b1 b2 b3 b4 b5 b6 b7 b8 b9 b10 b11 b12 b13 b14 b15 : Nat,
      b0 < 256 → b1 < 256 → b2 < 256 → b3 < 256 → b4 < 256 → b5 < 256 → b6 < 256 → b7 < 256 → b8 < 256 → b9 < 256 → b10 < 256 → b11 < 256 → b12 < 256 → b13 < 256 → b14 < 256 → b15 < 256 →
      wellFormedGUID (GUIDtoString (b64encode [b0, b1, b2, b3, b4, b5, b6, b7, b8, b9, b10, b11, b12, b13, b14, b15])) = true ∧
      guidToBytes (GUIDtoString (b64encode [b0, b1, b2, b3, b4, b5, b6, b7, b8, b9, b10, b11, b12, b13, b14, b15])) = [b0, b1, b2, b3, b4, b5, b6, b7, b8, b9, b10, b11, b12, b13, b14, b15]) ∧
    (∀ g : String, wellFormedGUID g = true →
      ∃ bs : List Nat, bs.length = 16 ∧ (∀ b ∈ bs, b < 256) ∧
        GUIDtoString (b64encode bs) = g) := by
  refine ⟨rfl, ?_, ?_, ?_⟩
  · intro s hs hlen
    unfold GUIDtoString
    rw [if_neg hs, guidReorder_ne32 _ (by rw [bytesToHex_length]; omega)]
    split
    · rename_i hres
      rw [hres]
    · rfl
  · intro b0 b1 b2 b3 b4 b5 b6 b7 b8 b9 b10 b11 b12 b13 b14 b15 h0 h1 h2 h3 h4 h5 h6 h7 h8 h9 h10 h11 h12 h13 h14 h15
    rw [guid_render b0 b1 b2 b3 b4 b5 b6 b7 b8 b9 b10 b11 b12 b13 b14 b15 h0 h1 h2 h3 h4 h5 h6 h7 h8 h9 h10 h11 h12 h13 h14 h15]
    constructor
    · simp [guidRender16, wellFormedGUID, (hexByte_wf b0 h0).1, (hexByte_wf b0 h0).2, (hexByte_wf b1 h1).1, (hexByte_wf b1 h1).2, (hexByte_wf b2 h2).1, (hexByte_wf b2 h2).2, (hexByte_wf b3 h3).1, (hexByte_wf b3 h3).2, (hexByte_wf b4 h4).1, (hexByte_wf b4 h4).2, (hexByte_wf b5 h5).1, (hexByte_wf b5 h5).2, (hexByte_wf b6 h6).1, (hexByte_wf b6 h6).2, (hexByte_wf b7 h7).1, (hexByte_wf b7 h7).2, (hexByte_wf b8 h8).1, (hexByte_wf b8 h8).2, (hexByte_wf b9 h9).1, (hexByte_wf b9 h9).2, (hexByte_wf b10 h10).1, (hexByte_wf b10 h10).2, (hexByte_wf b11 h11).1, (hexByte_wf b11 h11).2, (hexByte_wf b12 h12).1, (hexByte_wf b12 h12).2, (hexByte_wf b13 h13).1, (hexByte_wf b13 h13).2, (hexByte_wf b14 h14).1, (hexByte_wf b14 h14).2, (hexByte_wf b15 h15).1, (hexByte_wf b15 h15).2]
    · simp [guidRender16, guidToBytes, hexByte_round b0 h0, hexByte_round b1 h1, hexByte_round b2 h2, hexByte_round b3 h3, hexByte_round b4 h4, hexByte_round b5 h5, hexByte_round b6 h6, hexByte_round b7 h7, hexByte_round b8 h8, hexByte_round b9 h9, hexByte_round b10 h10, hexByte_round b11 h11, hexByte_round b12 h12, hexByte_round b13 h13, hexByte_round b14 h14, hexByte_round b15 h15]
  · intro g hwf
    unfold wellFormedGUID at hwf
    split at hwf
    · rename_i a1 a2 a3 a4 a5 a6 a7 a8 m1 b1 b2 b3 b4 m2 c1 c2 c3 c4 m3 d1 d2 d3 d4 m4 e1 e2 e3 e4 e5 e6 e7 e8 e9 e10 e11 e12 heq
      simp only [Bool.and_eq_true, beq_iff_eq, and_assoc] at hwf
      obtain ⟨hm1, hm2, hm3, hm4, ha1, ha2, ha3, ha4, ha5, ha6, ha7, ha8, hb1, hb2, hb3, hb4, hc1, hc2, hc3, hc4, hd1, hd2, hd3, hd4, he1, he2, he3, he4, he5, he6, he7, he8, he9, he10, he11, he12⟩ := hwf
      subst hm1
      subst hm2
      subst hm3
      subst hm4
      refine ⟨[hexPairU a7 a8, hexPairU a5 a6, hexPairU a3 a4, hexPairU a1 a2, hexPairU b3 b4, hexPairU b1 b2, hexPairU c3 c4, hexPairU c1 c2, hexPairU d3 d4, hexPairU d1 d2, hexPairU e11 e12, hexPairU e9 e10, hexPairU e7 e8, hexPairU e5 e6, hexPairU e3 e4, hexPairU e1 e2], by simp, ?_, ?_⟩
      · intro b hb
        simp only [List.mem_cons, List.not_mem_nil, or_false] at hb
        rcases hb with rfl | rfl | rfl | rfl | rfl | rfl | rfl | rfl | rfl | rfl | rfl | rfl | rfl | rfl | rfl | rfl
        · exact hexPairU_lt a7 a8 ha7 ha8
        · exact hexPairU_lt a5 a6 ha5 ha6
        · exact hexPairU_lt a3 a4 ha3 ha4
        · exact hexPairU_lt a1 a2 ha1 ha2
        · exact hexPairU_lt b3 b4 hb3 hb4
        · exact hexPairU_lt b1 b2 hb1 hb2
        · exact hexPairU_lt c3 c4 hc3 hc4
        · exact hexPairU_lt c1 c2 hc1 hc2
        · exact hexPairU_lt d3 d4 hd3 hd4
        · exact hexPairU_lt d1 d2 hd1 hd2
        · exact hexPairU_lt e11 e12 he11 he12
        · exact hexPairU_lt e9 e10 he9 he10
        · exact hexPairU_lt e7 e8 he7 he8
        · exact hexPairU_lt e5 e6 he5 he6
        · exact hexPairU_lt e3 e4 he3 he4
        · exact hexPairU_lt e1 e2 he1 he2
      · rw [guid_render (hexPairU a7 a8) (hexPairU a5 a6) (hexPairU a3 a4) (hexPairU a1 a2) (hexPairU b3 b4) (hexPairU b1 b2) (hexPairU c3 c4) (hexPairU c1 c2) (hexPairU d3 d4) (hexPairU d1 d2) (hexPairU e11 e12) (hexPairU e9 e10) (hexPairU e7 e8) (hexPairU e5 e6) (hexPairU e3 e4) (hexPairU e1 e2) (hexPairU_lt a7 a8 ha7 ha8) (hexPairU_lt a5 a6 ha5 ha6) (hexPairU_lt a3 a4 ha3 ha4) (hexPairU_lt a1 a2 ha1 ha2) (hexPairU_lt b3 b4 hb3 hb4) (hexPairU_lt b1 b2 hb1 hb2) (hexPairU_lt c3 c4 hc3 hc4) (hexPairU_lt c1 c2 hc1 hc2) (hexPairU_lt d3 d4 hd3 hd4) (hexPairU_lt d1 d2 hd1 hd2) (hexPairU_lt e11 e12 he11 he12) (hexPairU_lt e9 e10 he9 he10) (hexPairU_lt e7 e8 he7 he8) (hexPairU_lt e5 e6 he5 he6) (hexPairU_lt e3 e4 he3 he4) (hexPairU_lt e1 e2 he1 he2)]
        refine String.ext ?_
        rw [heq]
        simp [guidRender16, hexpair_hi, hexpair_lo, ha1, ha2, ha3, ha4, ha5, ha6, ha7, ha8, hb1, hb2, hb3, hb4, hc1, hc2, hc3, hc4, hd1, hd2, hd3, hd4, he1, he2, he3, he4, he5, he6, he7, he8, he9, he10, he11, he12]
    · exact absurd hwf (by simp)

/-- Witness for C3 at concrete inputs: the bytes 0..15 render to a
well-formed GUID recovered by the decoder, and a 3-byte input passes
through as plain uppercased hex. -/
theorem GUIDtoString_normalization_witness :
    (wellFormedGUID (GUIDtoString (b64encode
        [0, 1, 2, 3, 4, 5, 6, 7, 8, 9, 10, 11, 12, 13, 14, 15])) = true ∧
      guidToBytes (GUIDtoString (b64encode
        [0, 1, 2, 3, 4, 5, 6, 7, 8, 9, 10, 11, 12, 13, 14, 15])) =
        [0, 1, 2, 3, 4, 5, 6, 7, 8, 9, 10, 11, 12, 13, 14, 15]) ∧
    GUIDtoString "AAAA" = ⟨(bytesToHex (b64decode "AAAA")).map upChar⟩ :=
  ⟨GUIDtoString_normalization.2.2.1 0 1 2 3 4 5 6 7 8 9 10 11 12 13 14 15
      (by decide) (by decide) (by decide) (by decide) (by decide) (by decide)
      (by decide) (by decide) (by decide) (by decide) (by decide) (by decide)
      (by decide) (by decide) (by decide) (by decide),
   GUIDtoString_normalization.2.1 "AAAA" (by decide) (by decide)⟩

end LdapSpec
